import Mathlib

/-!
Shallow embedding of the collaborative board state synchronization engine of
the agor repository: the atomic board-object mutation service
(packages/core/src/db/repositories/boards.ts, quoted in the repository's
board-objects document), the daemon's broadcast channel
(apps/agor-daemon/src/index.ts), and the client-side reconciliation,
debounce/flush and canvas handlers
(apps/agor-ui/src/components/SessionCanvas/SessionCanvas.tsx and the
useBoardObjects hook quoted in the board-objects document).

Coordinates are modelled as rationals; string keys stay strings; the
JavaScript object maps become association lists with JS spread/assignment
semantics (`setKey` replaces in place or appends, `eraseKey` removes).
-/

/-- A 2-D coordinate, the `{x, y}` records of the source. -/
structure Pos where
  x : ℚ
  y : ℚ
deriving DecidableEq

/-- A `{width, height}` record, as accumulated by the resize debounce. -/
structure Dim where
  width : ℚ
  height : ℚ
deriving DecidableEq

/-- Zone trigger configuration (packages/core/src/types/board.ts). -/
structure ZoneTrigger where
  ttype : String
  text : String
deriving DecidableEq

/-- A board object: the tagged union `TextBoardObject | ZoneBoardObject` of
packages/core/src/types/board.ts. -/
inductive BoardObject where
  | text (x y : ℚ) (width height : Option ℚ) (content : String)
      (fontSize : Option ℚ) (color background : Option String)
  | zone (x y width height : ℚ) (label : String)
      (color status : Option String) (trigger : Option ZoneTrigger)
deriving DecidableEq

/-- The `type` discriminator of a board object. -/
def BoardObject.btype : BoardObject → String
  | .text .. => "text"
  | .zone .. => "zone"

/-- JS property assignment / object-spread override on a string-keyed map:
replace the entry in place when the key exists, append otherwise. -/
def setKey {α : Type} (k : String) (v : α) (l : List (String × α)) :
    List (String × α) :=
  if l.any (fun p => p.1 == k) then
    l.map (fun p => if p.1 = k then (k, v) else p)
  else l ++ [(k, v)]

/-- JS `delete map[k]`. -/
def eraseKey {α : Type} (k : String) (l : List (String × α)) :
    List (String × α) :=
  l.filter (fun p => p.1 != k)

/-- `{...obj, x, y}` — the merge performed by `batchUpdateObjectPositions`
on either object variant. -/
def setObjectPos : BoardObject → Pos → BoardObject
  | .text _ _ w h c fs col bg, p => .text p.x p.y w h c fs col bg
  | .zone _ _ w h lb col st tr, p => .zone p.x p.y w h lb col st tr

/-- `{...obj, width, height}` — the merge performed by the resize flush. -/
def setObjectDims : BoardObject → Dim → BoardObject
  | .text x y _ _ c fs col bg, d => .text x y (some d.width) (some d.height) c fs col bg
  | .zone x y _ _ lb col st tr, d => .zone x y d.width d.height lb col st tr

/-- A session layout entry `{x, y, parentId?}` of `board.layout`. -/
structure LayoutEntry where
  x : ℚ
  y : ℚ
  parentId : Option String
deriving DecidableEq

/-- The Board record (packages/core/src/types/board.ts), restricted to the
fields the synchronization engine reads or writes. -/
structure Board where
  board_id : String
  name : String
  sessions : List String
  layout : List (String × LayoutEntry)
  objects : List (String × BoardObject)
deriving DecidableEq

/-- The board document store: board id → Board, as an association list. -/
abbrev BoardDB : Type := List (String × Board)

/-- `findById` of the board repository. -/
def findById (db : BoardDB) (i : String) : Option Board :=
  db.lookup i

/-- `this.update(fullId, {objects: ...})` persisting a full board back into
the store: replaces the record held under the given id. -/
def updateBoard (db : BoardDB) (i : String) (b : Board) : BoardDB :=
  db.map (fun p => if p.1 = i then (i, b) else p)

/-- `BoardRepository.upsertBoardObject` (boards.ts): resolve the board id,
load the board (not-found error when absent), merge the object under
`objectId` by spread, persist, return the updated board. -/
def upsertBoardObject (resolve : String → String) (db : BoardDB)
    (boardId objectId : String) (objectData : BoardObject) :
    Except String (Board × BoardDB) :=
  let fullId := resolve boardId
  match findById db fullId with
  | none => .error "EntityNotFoundError: Board"
  | some current =>
      let updated : Board :=
        { current with objects := setKey objectId objectData current.objects }
      .ok (updated, updateBoard db fullId updated)

/-- `BoardRepository.removeBoardObject` (boards.ts): resolve, load (not-found
error when absent), delete the entry for `objectId` if present, persist,
return the updated board. -/
def removeBoardObject (resolve : String → String) (db : BoardDB)
    (boardId objectId : String) : Except String (Board × BoardDB) :=
  let fullId := resolve boardId
  match findById db fullId with
  | none => .error "EntityNotFoundError: Board"
  | some current =>
      let updated : Board :=
        { current with objects := eraseKey objectId current.objects }
      .ok (updated, updateBoard db fullId updated)

/-- `BoardRepository.batchUpsertBoardObjects` (boards.ts): resolve, load once,
merge all entries of the batch into the objects map in one pass
(`{...current.objects, ...objects}`), persist once. -/
def batchUpsertBoardObjects (resolve : String → String) (db : BoardDB)
    (boardId : String) (objects : List (String × BoardObject)) :
    Except String (Board × BoardDB) :=
  let fullId := resolve boardId
  match findById db fullId with
  | none => .error "EntityNotFoundError: Board"
  | some current =>
      let updated : Board :=
        { current with
            objects := objects.foldl (fun acc kv => setKey kv.1 kv.2 acc)
              current.objects }
      .ok (updated, updateBoard db fullId updated)

/-- JS `Math.abs` on a number. -/
def mathAbs (a : ℚ) : ℚ := if a < 0 then -a else a

/-- A React Flow node as the canvas holds it: id, node type
(`sessionNode` or `zone`), position, selection flag and, for zones, the
drawn dimensions. -/
structure CanvasNode where
  id : String
  ntype : String
  position : Pos
  selected : Bool
  dims : Option Dim
deriving DecidableEq

/-- A network write issued to the boards service: the `_action` patches of
the Atomic Mutation Service plus the plain layout patch. -/
inductive MutationWrite where
  | upsertObject (boardId objectId : String) (objectData : BoardObject)
  | removeObject (boardId objectId : String)
  | batchUpsertObjects (boardId : String) (objects : List (String × BoardObject))
  | patchLayout (boardId : String) (layout : List (String × LayoutEntry))
deriving DecidableEq

/-- The per-node body of the sync effect (SessionCanvas.tsx lines 281-303):
given the locally tracked pending positions, the preserved selection flag
and an incoming node, decide which position the view keeps and how
`localPositionsRef` changes.  `positionChanged` is the tolerance check
`Math.abs(local.x - incoming.x) > 1 || Math.abs(local.y - incoming.y) > 1`;
when it holds the local entry is deleted and the incoming node returned;
otherwise, when a local entry exists, the local position is kept. -/
def syncNodeMerge (localPositions : List (String × Pos)) (sel : Bool)
    (n : CanvasNode) : CanvasNode × List (String × Pos) :=
  match localPositions.lookup n.id with
  | some lp =>
      if mathAbs (lp.x - n.position.x) > 1 ∨ mathAbs (lp.y - n.position.y) > 1 then
        ({ n with selected := sel }, eraseKey n.id localPositions)
      else
        ({ n with position := lp, selected := sel }, localPositions)
  | none => ({ n with selected := sel }, localPositions)

/-- `existingNode?.selected` lookup against the current node list. -/
def findSelected (currentNodes : List CanvasNode) (i : String) : Bool :=
  match currentNodes.find? (fun c => c.id == i) with
  | some c => c.selected
  | none => false

/-- One step of the sync effect map over the (already filtered) incoming
nodes, threading `localPositionsRef` through `syncNodeMerge`. -/
def reconcileStep (currentNodes : List CanvasNode)
    (st : List CanvasNode × List (String × Pos)) (n : CanvasNode) :
    List CanvasNode × List (String × Pos) :=
  let r := syncNodeMerge st.2 (findSelected currentNodes n.id) n
  (st.1 ++ [r.1], r.2)

/-- The sync effect of SessionCanvas.tsx (lines 262-310) on an incoming
board snapshot: drop every node whose id is in `deletedObjectsRef`, then
map each surviving node through the tolerance merge. -/
def reconcileSnapshot (deleted : List String)
    (localPositions : List (String × Pos))
    (currentNodes incoming : List CanvasNode) :
    List CanvasNode × List (String × Pos) :=
  (incoming.filter (fun n => !deleted.contains n.id)).foldl
    (reconcileStep currentNodes) ([], localPositions)

/-- Result of the client-side `deleteObject` of the useBoardObjects hook
(quoted in the board-objects document, lines 456-473): the updated
tombstone set, the optimistically filtered node list, the `removeObject`
write issued, and the grace delay in milliseconds after which the
tombstone is scheduled to clear. -/
structure ClientDeleteResult where
  deleted : List String
  nodes : List CanvasNode
  write : MutationWrite
  clearDelayMs : Nat
deriving DecidableEq

/-- Client-side `deleteObject`: mark the id as deleted, remove the node
from the view, issue `removeObject`, schedule the tombstone to clear
after 1000 ms. -/
def deleteObject (deleted : List String) (nodes : List CanvasNode)
    (boardId objectId : String) : ClientDeleteResult :=
  { deleted := if deleted.contains objectId then deleted else deleted ++ [objectId]
  , nodes := nodes.filter (fun n => n.id != objectId)
  , write := .removeObject boardId objectId
  , clearDelayMs := 1000 }

/-- The scheduled `deletedObjectsRef.current.delete(objectId)`. -/
def clearDeletedTracking (deleted : List String) (objectId : String) :
    List String :=
  deleted.filter (fun i => i != objectId)

/-- The `objects` payload built by `batchUpdateObjectPositions` (quoted in
the board-objects document, lines 476-495): walk the pending position
updates, skip ids deleted locally, skip ids absent from the board's
objects, otherwise merge the position into the existing object. -/
def batchPositionsGo (deleted : List String)
    (boardObjects : List (String × BoardObject)) :
    List (String × Pos) → List (String × BoardObject) →
      List (String × BoardObject)
  | [], acc => acc
  | kv :: rest, acc =>
      batchPositionsGo deleted boardObjects rest
        (if deleted.contains kv.1 then acc
         else
           match boardObjects.lookup kv.1 with
           | none => acc
           | some obj => setKey kv.1 (setObjectPos obj kv.2) acc)

/-- The payload accumulated by the loop, starting from the empty object. -/
def batchPositionsPayload (deleted : List String)
    (boardObjects : List (String × BoardObject))
    (updates : List (String × Pos)) : List (String × BoardObject) :=
  batchPositionsGo deleted boardObjects updates []

/-- Client-side `batchUpdateObjectPositions`: one `batchUpsertObjects`
call carrying the filtered payload. -/
def batchUpdateObjectPositions (deleted : List String)
    (boardObjects : List (String × BoardObject)) (boardId : String)
    (updates : List (String × Pos)) : MutationWrite :=
  .batchUpsertObjects boardId (batchPositionsPayload deleted boardObjects updates)

/-- The writes of the resize debounce flush (SessionCanvas.tsx lines
340-367): for each accumulated `(nodeId, dimensions)` pair, if the board
still has that object and it is a zone, issue one `upsertObject` patch
with the merged dimensions.  There is no check against
`deletedObjectsRef` on this path. -/
def resizeFlushWrites (boardObjects : List (String × BoardObject))
    (boardId : String) : List (String × Dim) → List MutationWrite
  | [] => []
  | kv :: rest =>
      (match boardObjects.lookup kv.1 with
       | some obj =>
           if obj.btype = "zone" then
             [MutationWrite.upsertObject boardId kv.1 (setObjectDims obj kv.2)]
           else []
       | none => []) ++ resizeFlushWrites boardObjects boardId rest

/-- The resize debounce timer body: take the pending buffer, clear it,
emit the writes. -/
def resizeFlush (boardObjects : List (String × BoardObject))
    (boardId : String) (pending : List (String × Dim)) :
    List MutationWrite × List (String × Dim) :=
  (resizeFlushWrites boardObjects boardId pending, [])

/-- Is the node with this id currently a zone node?  (The type split of
`handleNodeDragStop`.) -/
def isZoneNode (nodes : List CanvasNode) (i : String) : Bool :=
  match nodes.find? (fun n => n.id == i) with
  | some n => n.ntype == "zone"
  | none => false

/-- The layout debounce timer body of `handleNodeDragStop` (SessionCanvas
lines 415-458): split the pending position updates into session updates
and zone-object updates by current node type; session updates are merged
over `board.layout` and sent as one plain layout patch; zone updates are
sent through `batchUpdateObjectPositions` as one batch call; the pending
buffer is cleared. -/
def layoutFlush (nodes : List CanvasNode) (deleted : List String)
    (boardObjects : List (String × BoardObject)) (boardId : String)
    (boardLayout : List (String × LayoutEntry))
    (pending : List (String × Pos)) :
    List MutationWrite × List (String × Pos) :=
  let sessionUpdates := pending.filter (fun kv => !isZoneNode nodes kv.1)
  let objectUpdates := pending.filter (fun kv => isZoneNode nodes kv.1)
  let layoutWrites :=
    if sessionUpdates.isEmpty then []
    else
      [MutationWrite.patchLayout boardId
        (sessionUpdates.foldl
          (fun acc kv => setKey kv.1 ⟨kv.2.x, kv.2.y, none⟩ acc) boardLayout)]
  let objectWrites :=
    if objectUpdates.isEmpty then []
    else [batchUpdateObjectPositions deleted boardObjects boardId objectUpdates]
  (layoutWrites ++ objectWrites, [])

/-- The accumulation step of both debounce buffers
(`pendingResizeUpdatesRef.current[id] = v` and
`pendingLayoutUpdatesRef.current[id] = v`): JS property assignment. -/
def accumPending {α : Type} (pending : List (String × α)) (k : String)
    (v : α) : List (String × α) :=
  setKey k v pending

/-- Pinning conversion of `handleNodeDragStop` (board-objects document,
lines 694-695): absolute node position minus the zone's absolute
position gives the zone-relative position. -/
def pinPosition (nodePos zonePos : Pos) : Pos :=
  ⟨nodePos.x - zonePos.x, nodePos.y - zonePos.y⟩

/-- Unpinning conversion of `handleUnpin` (board-objects document, lines
725-727): relative position plus the parent zone's absolute position;
when the parent zone is not found the node position is used as-is. -/
def unpinPosition (nodePos : Pos) (parentZonePos : Option Pos) : Pos :=
  match parentZonePos with
  | some z => ⟨nodePos.x + z.x, nodePos.y + z.y⟩
  | none => nodePos

/-- The drag-to-draw rectangle held in `drawingZone` state. -/
structure DrawingZone where
  startX : ℚ
  startY : ℚ
  endX : ℚ
  endY : ℚ
deriving DecidableEq

/-- The outcome of releasing the pointer on the canvas. -/
structure PointerUpResult where
  nodes : List CanvasNode
  writes : List MutationWrite
  drawingZone : Option DrawingZone
  activeTool : String
deriving DecidableEq

/-- `handlePointerUp` (SessionCanvas.tsx lines 509-592): when the zone
tool is active with a drawing in progress and a flow instance, compute
the screen-space rectangle; only when it is strictly larger than 50x50
create the optimistic zone node and, when board and client exist, issue
the `upsertObject` write; in both cases clear the drawing and reset the
tool to select.  Otherwise nothing changes. -/
def handlePointerUp (activeTool : String) (drawingZone : Option DrawingZone)
    (hasInstance : Bool) (screenToFlow : Pos → Pos) (zoom : ℚ)
    (hasBoardClient : Bool) (boardId : String) (nowMs : Nat)
    (nodes : List CanvasNode) : PointerUpResult :=
  match drawingZone with
  | some dz =>
      if activeTool = "zone" ∧ hasInstance then
        let minX := min dz.startX dz.endX
        let minY := min dz.startY dz.endY
        let screenWidth := mathAbs (dz.endX - dz.startX)
        let screenHeight := mathAbs (dz.endY - dz.startY)
        if screenWidth > 50 ∧ screenHeight > 50 then
          let position := screenToFlow ⟨minX, minY⟩
          let width := screenWidth / zoom
          let height := screenHeight / zoom
          let objectId := "zone-" ++ toString nowMs
          { nodes := nodes ++ [⟨objectId, "zone", position, false, some ⟨width, height⟩⟩]
          , writes :=
              if hasBoardClient then
                [MutationWrite.upsertObject boardId objectId
                  (.zone position.x position.y width height "New Zone"
                    (some "#d9d9d9") none none)]
              else []
          , drawingZone := none
          , activeTool := "select" }
        else
          { nodes := nodes, writes := [], drawingZone := none
          , activeTool := "select" }
      else
        { nodes := nodes, writes := [], drawingZone := some dz
        , activeTool := activeTool }
  | none =>
      { nodes := nodes, writes := [], drawingZone := none
      , activeTool := activeTool }

/-- `handleNodeClick` (SessionCanvas.tsx lines 595-611): in eraser mode a
click deletes the node only when it is a zone; otherwise a session-node
click fires the session click callback.  Returns the ids passed to
`deleteObject` and the session click, if any. -/
def handleNodeClick (activeTool : String) (node : CanvasNode) :
    List String × Option String :=
  if activeTool = "eraser" then
    (if node.ntype = "zone" then [node.id] else [], none)
  else
    ([], if node.ntype = "sessionNode" then some node.id else none)

/-- `handleKeyDown` of the keyboard-shortcuts effect (SessionCanvas.tsx
lines 614-637): tool switches on z / e / Escape, and on Delete or
Backspace the selected zone nodes are passed to `deleteObject`. -/
def handleKeyDown (key : String) (nodes : List CanvasNode) :
    Option String × List String :=
  let toolChange :=
    if key = "z" then some "zone"
    else if key = "e" then some "eraser"
    else if key = "Escape" then some "select"
    else none
  let deletions :=
    if key = "Delete" ∨ key = "Backspace" then
      ((nodes.filter (fun n => n.selected)).filter
        (fun n => n.ntype == "zone")).map (fun n => n.id)
    else []
  (toolChange, deletions)

/-- `app.channel('everybody').join(connection)` on connection
(apps/agor-daemon/src/index.ts lines 68-72). -/
def joinEverybody (channel : List String) (c : String) : List String :=
  if channel.contains c then channel else channel ++ [c]

/-- A connection leaving the channel on disconnect. -/
def disconnectChannel (channel : List String) (c : String) : List String :=
  channel.filter (fun x => x != c)

/-- `app.publish(() => app.channel('everybody'))`: a patched event carrying
the full board is delivered to every connection in the channel. -/
def publishPatched (channel : List String) (b : Board) :
    List (String × Board) :=
  channel.map (fun c => (c, b))

/-- The `_action` values routed by the boards patch hook. -/
inductive HookAction where
  | upsertObject (objectId : String) (objectData : BoardObject)
  | removeObject (objectId : String)
  | batchUpsertObjects (objects : List (String × BoardObject))

/-- The boards patch before-hook (board-objects document, lines 165-198):
route each `_action` to the matching atomic repository method. -/
def boardsPatchHook (resolve : String → String) (db : BoardDB)
    (boardId : String) : HookAction → Except String (Board × BoardDB)
  | .upsertObject oid dat => upsertBoardObject resolve db boardId oid dat
  | .removeObject oid => removeBoardObject resolve db boardId oid
  | .batchUpsertObjects objs => batchUpsertBoardObjects resolve db boardId objs

/-- A routed mutation followed by the manual `emit('patched', result)`:
on success the full resulting board is published to the everybody
channel; a failed mutation publishes nothing. -/
def mutateAndBroadcast (resolve : String → String) (db : BoardDB)
    (boardId : String) (a : HookAction) (channel : List String) :
    Except String (Board × BoardDB × List (String × Board)) :=
  match boardsPatchHook resolve db boardId a with
  | .error e => .error e
  | .ok (b, db2) => .ok (b, db2, publishPatched channel b)

/-- `boardsService.removeListener('patched', handler)` in the cleanup of
useAgorData: the handler is dropped from the registry. -/
def removeListener (listeners : List String) (h : String) : List String :=
  listeners.filter (fun x => x != h)

/-- Dispatch of a received patched event to every registered handler
(useAgorData subscription). -/
def dispatchPatched (listeners : List String) (b : Board) :
    List (String × Board) :=
  listeners.map (fun h => (h, b))

/-! Concrete sample data used by witnesses and counterexamples. -/

/-- A sample zone object. -/
def zoneO : BoardObject := .zone 0 0 10 10 "Z" none none none

/-- A second sample zone object. -/
def zoneA : BoardObject := .zone 5 5 20 20 "A" none none none

/-- A sample board holding the one object `o`. -/
def boardB : Board :=
  { board_id := "b"
  , name := "B"
  , sessions := []
  , layout := []
  , objects := [("o", zoneO)] }

/-- A sample board holding the two zones `z1` and `z2`. -/
def boardTwoZones : Board :=
  { board_id := "b"
  , name := "B"
  , sessions := []
  , layout := []
  , objects := [("z1", zoneO), ("z2", zoneA)] }

/-- The sample board after its object `o` has been removed. -/
def boardBdel : Board :=
  { board_id := "b"
  , name := "B"
  , sessions := []
  , layout := []
  , objects := [] }

/-- A sample zone-typed canvas node with id `x`. -/
def nodeX : CanvasNode :=
  { id := "x", ntype := "zone", position := ⟨0, 0⟩
  , selected := false, dims := none }

/-- A sample session-typed canvas node. -/
def nodeS : CanvasNode :=
  { id := "s1", ntype := "sessionNode", position := ⟨0, 0⟩
  , selected := true, dims := none }

/-- The optimistic zone node `handlePointerUp` appends on a successful
drag: flow position of the screen top-left corner, flow-space
dimensions. -/
def zoneNodeOf (dz : DrawingZone) (s2f : Pos → Pos) (zoom : ℚ)
    (nowMs : Nat) : CanvasNode :=
  { id := "zone-" ++ toString nowMs
  , ntype := "zone"
  , position := s2f ⟨min dz.startX dz.endX, min dz.startY dz.endY⟩
  , selected := false
  , dims := some ⟨mathAbs (dz.endX - dz.startX) / zoom,
      mathAbs (dz.endY - dz.startY) / zoom⟩ }

/-- The `upsertObject` write `handlePointerUp` persists on a successful
drag. -/
def zoneWriteOf (dz : DrawingZone) (s2f : Pos → Pos) (zoom : ℚ)
    (bid : String) (nowMs : Nat) : MutationWrite :=
  .upsertObject bid ("zone-" ++ toString nowMs)
    (.zone (s2f ⟨min dz.startX dz.endX, min dz.startY dz.endY⟩).x
      (s2f ⟨min dz.startX dz.endX, min dz.startY dz.endY⟩).y
      (mathAbs (dz.endX - dz.startX) / zoom)
      (mathAbs (dz.endY - dz.startY) / zoom)
      "New Zone" (some "#d9d9d9") none none)

/-! Helper lemmas about the association-list map operations. -/

/-- Looking up a key at a matching head entry. -/
theorem lookup_cons_self {α : Type} (k : String) (v : α)
    (t : List (String × α)) : List.lookup k ((k, v) :: t) = some v := by
  simp [List.lookup]

/-- Looking up a key skips a non-matching head entry. -/
theorem lookup_cons_ne {α : Type} {k j : String} (h : k ≠ j) (v : α)
    (t : List (String × α)) :
    List.lookup k ((j, v) :: t) = List.lookup k t := by
  have hb : (k == j) = false := beq_eq_false_iff_ne.mpr h
  simp [List.lookup, hb]

/-- Deleting a key twice is the same as deleting it once. -/
theorem eraseKey_idem {α : Type} (k : String) (l : List (String × α)) :
    eraseKey k (eraseKey k l) = eraseKey k l := by
  simp [eraseKey, List.filter_filter]

/-- After `delete map[k]`, looking up `k` yields nothing. -/
theorem lookup_eraseKey_self {α : Type} (k : String) (l : List (String × α)) :
    (eraseKey k l).lookup k = none := by
  induction l with
  | nil => rfl
  | cons p t ih =>
      by_cases h : p.1 = k
      · simpa [eraseKey, List.filter_cons, h] using ih
      · have hcons : eraseKey k (p :: t) = p :: eraseKey k t := by
          simp [eraseKey, List.filter_cons, h]
        rw [hcons, show p = (p.1, p.2) from rfl,
          lookup_cons_ne (Ne.symm h) p.2 (eraseKey k t)]
        exact ih

/-- After `map[k] = v`, looking up `k` yields `v`. -/
theorem lookup_setKey_self {α : Type} (k : String) (v : α)
    (l : List (String × α)) : (setKey k v l).lookup k = some v := by
  induction l with
  | nil => simp [setKey, List.lookup]
  | cons p t ih =>
      by_cases h : p.1 = k
      · have hany : ((p :: t).any fun q => q.1 == k) = true := by
          simp [List.any_cons, h]
        have hmap : setKey k v (p :: t)
            = (k, v) :: t.map (fun q => if q.1 = k then (k, v) else q) := by
          simp [setKey, hany, h]
        rw [hmap, lookup_cons_self]
      · by_cases h2 : (t.any fun q => q.1 == k) = true
        · have hany : ((p :: t).any fun q => q.1 == k) = true := by
            simp [List.any_cons, h2]
          have hmap : setKey k v (p :: t)
              = p :: t.map (fun q => if q.1 = k then (k, v) else q) := by
            simp [setKey, hany, h]
          have ht : setKey k v t
              = t.map (fun q => if q.1 = k then (k, v) else q) := by
            simp [setKey, h2]
          rw [hmap, show p = (p.1, p.2) from rfl,
            lookup_cons_ne (Ne.symm h) p.2, ← ht]
          exact ih
        · have hany : ((p :: t).any fun q => q.1 == k) = false := by
            simp [List.any_cons, h2, h]
          have hmap : setKey k v (p :: t) = p :: (t ++ [(k, v)]) := by
            simp [setKey, hany]
          have ht : setKey k v t = t ++ [(k, v)] := by
            simp [setKey, h2]
          rw [hmap, show p = (p.1, p.2) from rfl,
            lookup_cons_ne (Ne.symm h) p.2, ← ht]
          exact ih

/-- Membership in a map after `map[k] = v`. -/
theorem mem_setKey {α : Type} {p : String × α} {k : String} {v : α}
    {l : List (String × α)} (h : p ∈ setKey k v l) : p ∈ l ∨ p = (k, v) := by
  unfold setKey at h
  split at h
  · rcases List.mem_map.1 h with ⟨q, hq, heq⟩
    by_cases hk : q.1 = k
    · simp [hk] at heq
      exact Or.inr heq.symm
    · simp [hk] at heq
      exact Or.inl (heq ▸ hq)
  · rcases List.mem_append.1 h with h1 | h1
    · exact Or.inl h1
    · simp at h1
      exact Or.inr h1

/-- Persisting a board under an id that is present makes later loads of
that id return it. -/
theorem lookup_updateBoard (db : BoardDB) (i : String) (b0 b : Board)
    (h : db.lookup i = some b0) : (updateBoard db i b).lookup i = some b := by
  induction db with
  | nil => simp [List.lookup] at h
  | cons p t ih =>
      by_cases hp : p.1 = i
      · have : updateBoard (p :: t) i b
            = (i, b) :: t.map (fun q => if q.1 = i then (i, b) else q) := by
          simp [updateBoard, hp]
        rw [this, lookup_cons_self]
      · have hcons : updateBoard (p :: t) i b = p :: updateBoard t i b := by
          simp [updateBoard, hp]
        rw [hcons, show p = (p.1, p.2) from rfl,
          lookup_cons_ne (Ne.symm hp) p.2]
        rw [show p = (p.1, p.2) from rfl,
          lookup_cons_ne (Ne.symm hp) p.2] at h
        exact ih h

/-- Persisting twice under the same id keeps only the second write. -/
theorem updateBoard_updateBoard (db : BoardDB) (i : String) (b1 b2 : Board) :
    updateBoard (updateBoard db i b1) i b2 = updateBoard db i b2 := by
  induction db with
  | nil => rfl
  | cons p t ih =>
      by_cases hp : p.1 = i <;>
        simp only [updateBoard, List.map_cons] at ih ⊢ <;>
        simp [hp, ih]

/-! Helper lemmas about the client-side reconciliation and flush loops. -/

/-- The tolerance merge never changes a node's id. -/
theorem syncNodeMerge_fst_id (L : List (String × Pos)) (sel : Bool)
    (n : CanvasNode) : (syncNodeMerge L sel n).1.id = n.id := by
  unfold syncNodeMerge
  cases L.lookup n.id with
  | none => rfl
  | some lp =>
      dsimp only
      split <;> rfl

/-- The ids produced by the sync map are exactly the ids it was fed. -/
theorem foldl_reconcileStep_ids (cn : List CanvasNode) (l : List CanvasNode)
    (st : List CanvasNode × List (String × Pos)) :
    ((l.foldl (reconcileStep cn) st).1).map CanvasNode.id
      = st.1.map CanvasNode.id ++ l.map CanvasNode.id := by
  induction l generalizing st with
  | nil => simp
  | cons n t ih =>
      rw [List.foldl_cons, ih]
      simp [reconcileStep, syncNodeMerge_fst_id]

/-- Every write of the resize flush is a single `upsertObject` call. -/
theorem resizeFlushWrites_shape (bo : List (String × BoardObject))
    (bid : String) (pending : List (String × Dim)) :
    ∀ w ∈ resizeFlushWrites bo bid pending,
      ∃ oid dat, w = MutationWrite.upsertObject bid oid dat := by
  induction pending with
  | nil => simp [resizeFlushWrites]
  | cons kv t ih =>
      intro w hw
      rw [resizeFlushWrites] at hw
      rcases List.mem_append.1 hw with h1 | h1
      · cases hlk : bo.lookup kv.1 with
        | none => simp [hlk] at h1
        | some obj =>
            by_cases hz : obj.btype = "zone"
            · simp only [hlk, if_pos hz, List.mem_singleton] at h1
              exact ⟨kv.1, setObjectDims obj kv.2, h1⟩
            · simp [hlk, hz] at h1
      · exact ih w h1

/-- The resize flush makes one call per eligible pending id. -/
theorem resizeFlushWrites_length (bo : List (String × BoardObject))
    (bid : String) (pending : List (String × Dim)) :
    (resizeFlushWrites bo bid pending).length
      = (pending.filter (fun kv =>
          match bo.lookup kv.1 with
          | some obj => obj.btype == "zone"
          | none => false)).length := by
  induction pending with
  | nil => rfl
  | cons kv t ih =>
      rw [resizeFlushWrites, List.length_append, ih, List.filter_cons]
      cases hlk : bo.lookup kv.1 with
      | none => simp [hlk]
      | some obj =>
          by_cases hz : obj.btype = "zone" <;>
            simp [hlk, hz, Nat.add_comm]

/-- Every entry of the batch-positions payload has a key the client has
not locally deleted. -/
theorem batchPositionsGo_not_deleted (deleted : List String)
    (bo : List (String × BoardObject)) (updates : List (String × Pos))
    (acc : List (String × BoardObject))
    (hacc : ∀ p ∈ acc, deleted.contains p.1 = false) :
    ∀ p ∈ batchPositionsGo deleted bo updates acc,
      deleted.contains p.1 = false := by
  induction updates generalizing acc with
  | nil => exact hacc
  | cons kv t ih =>
      rw [batchPositionsGo]
      by_cases hdel : deleted.contains kv.1
      · rw [if_pos hdel]
        exact ih acc hacc
      · rw [if_neg hdel]
        cases hlk : bo.lookup kv.1 with
        | none => exact ih acc hacc
        | some obj =>
            refine ih _ ?_
            intro p hp
            rcases mem_setKey hp with h1 | h1
            · exact hacc p h1
            · rw [h1]
              simpa using hdel

/-! Claim theorems. -/

/-- Claim C4: for every board, applying `removeObject` twice with the same
object id produces the same resulting board (and store) as applying it
once; removal succeeds whenever the board exists, in particular when the
object id is absent from the objects map; and a board id that resolves to
no existing board yields a not-found error. -/
theorem c4_remove_idempotent (resolve : String → String) (db : BoardDB)
    (bid oid : String) :
    (findById db (resolve bid) = none →
      removeBoardObject resolve db bid oid
        = .error "EntityNotFoundError: Board") ∧
    (∀ cur, findById db (resolve bid) = some cur →
      ∃ b1 db1, removeBoardObject resolve db bid oid = .ok (b1, db1) ∧
        removeBoardObject resolve db1 bid oid = .ok (b1, db1)) := by
  constructor
  · intro h
    unfold removeBoardObject
    simp only [h]
  · intro cur hcur
    refine ⟨{ cur with objects := eraseKey oid cur.objects },
      updateBoard db (resolve bid)
        { cur with objects := eraseKey oid cur.objects }, ?_, ?_⟩
    · unfold removeBoardObject
      simp only [hcur]
    · have h2 : findById (updateBoard db (resolve bid)
          { cur with objects := eraseKey oid cur.objects }) (resolve bid)
          = some { cur with objects := eraseKey oid cur.objects } :=
        lookup_updateBoard db (resolve bid) cur _ hcur
      unfold removeBoardObject
      simp only [h2]
      rw [show eraseKey oid ({ cur with
            objects := eraseKey oid cur.objects } : Board).objects
          = eraseKey oid cur.objects from eraseKey_idem oid cur.objects]
      rw [updateBoard_updateBoard]

/-- Witness for C4 at a concrete store: a board holding one object. -/
theorem c4_remove_idempotent_witness :
    ∃ b1 db1,
      removeBoardObject id [("b", boardB)] "b" "o" = .ok (b1, db1) ∧
      removeBoardObject id db1 "b" "o" = .ok (b1, db1) := by
  exact (c4_remove_idempotent id [("b", boardB)] "b" "o").2 boardB rfl

/-- Claim C5: applying `batchUpsertObjects` with entries A and B produces
the same final result (board and store) as applying `upsertObject(A, a)`
and then `upsertObject(B, b)` sequentially, with no other mutation
interleaved. -/
theorem c5_batch_equiv (resolve : String → String) (db : BoardDB)
    (bid A B : String) (a b : BoardObject) :
    batchUpsertBoardObjects resolve db bid [(A, a), (B, b)]
      = match upsertBoardObject resolve db bid A a with
        | .error e => .error e
        | .ok r => upsertBoardObject resolve r.2 bid B b := by
  cases hcur : findById db (resolve bid) with
  | none =>
      unfold batchUpsertBoardObjects upsertBoardObject
      simp only [hcur]
  | some cur =>
      have h2 : findById (updateBoard db (resolve bid)
          { cur with objects := setKey A a cur.objects }) (resolve bid)
          = some { cur with objects := setKey A a cur.objects } :=
        lookup_updateBoard db (resolve bid) cur _ hcur
      unfold batchUpsertBoardObjects upsertBoardObject
      simp only [hcur, h2]
      rw [updateBoard_updateBoard]
      rfl

/-- Claim C8: pinning a positioned entity to a zone (absolute position
minus the zone's absolute position) followed immediately by unpinning
(adding the zone's absolute position back) restores the original absolute
coordinates, when the zone position is unchanged in between. -/
theorem c8_pin_unpin_roundtrip (p z : Pos) :
    unpinPosition (pinPosition p z) (some z) = p := by
  cases p with
  | mk px py =>
      cases z with
      | mk zx zy => simp [pinPosition, unpinPosition]

/-- Claim C1 (counterexample): at a locally tracked pending position
(0,0) and an incoming position (10,0) — a delta above the tolerance —
the sync effect does NOT keep the local value and retain ownership, as
the claim states; it adopts the incoming position and clears ownership. -/
theorem c1_claim_counterexample :
    ¬ (((syncNodeMerge [("n", ⟨0, 0⟩)] false
          ⟨"n", "zone", ⟨10, 0⟩, false, none⟩).1.position = ⟨0, 0⟩) ∧
        ((syncNodeMerge [("n", ⟨0, 0⟩)] false
          ⟨"n", "zone", ⟨10, 0⟩, false, none⟩).2.lookup "n"
            = some ⟨0, 0⟩)) := by
  have heval : syncNodeMerge [("n", ⟨0, 0⟩)] false
      ⟨"n", "zone", ⟨10, 0⟩, false, none⟩
      = (⟨"n", "zone", ⟨10, 0⟩, false, none⟩, []) := by
    unfold syncNodeMerge
    norm_num [List.lookup, mathAbs, eraseKey]
  intro hc
  rw [heval] at hc
  simp [Pos.mk.injEq] at hc

/-- Claim C1 (amended): during reconciliation, for a node id with a
locally tracked pending position, if the positional delta between the
local pending position and the incoming position exceeds the tolerance
threshold, ownership is cleared and the incoming position adopted; if
the delta is within tolerance, the local value is kept in the view and
local ownership of that id is retained. -/
theorem c1_tolerance_merge_amended (L : List (String × Pos)) (sel : Bool)
    (n : CanvasNode) (lp : Pos) (h : L.lookup n.id = some lp) :
    ((mathAbs (lp.x - n.position.x) > 1 ∨ mathAbs (lp.y - n.position.y) > 1) →
      (syncNodeMerge L sel n).1.position = n.position ∧
      (syncNodeMerge L sel n).2.lookup n.id = none) ∧
    (¬ (mathAbs (lp.x - n.position.x) > 1 ∨ mathAbs (lp.y - n.position.y) > 1) →
      (syncNodeMerge L sel n).1.position = lp ∧
      (syncNodeMerge L sel n).2 = L) := by
  unfold syncNodeMerge
  simp only [h]
  constructor
  · intro hgt
    rw [if_pos hgt]
    exact ⟨rfl, lookup_eraseKey_self n.id L⟩
  · intro hle
    rw [if_neg hle]
    exact ⟨rfl, rfl⟩

/-- Witness for the amended C1: delta above tolerance — incoming adopted,
ownership entry gone; the same concrete input as the counterexample. -/
theorem c1_tolerance_merge_amended_witness :
    (syncNodeMerge [("n", ⟨0, 0⟩)] false
        ⟨"n", "zone", ⟨10, 0⟩, false, none⟩).1.position = (⟨10, 0⟩ : Pos) ∧
    (syncNodeMerge [("n", ⟨0, 0⟩)] false
        ⟨"n", "zone", ⟨10, 0⟩, false, none⟩).2.lookup "n" = none := by
  have h := (c1_tolerance_merge_amended [("n", ⟨0, 0⟩)] false
      ⟨"n", "zone", ⟨10, 0⟩, false, none⟩ ⟨0, 0⟩ rfl).1
    (by norm_num [mathAbs])
  exact h

/-- Claim C2: an id in the locally-deleted set is discarded entirely by
reconciliation of any incoming snapshot — it never appears in the merged
node list while the suppression is active; a local delete puts the id in
the set, schedules the suppression to clear after the fixed 1000 ms grace
period, and the scheduled clearing does remove it. -/
theorem c2_tombstone_suppression (deleted : List String)
    (localPositions : List (String × Pos))
    (currentNodes incoming nodes : List CanvasNode)
    (bid oid delId : String) (hdel : delId ∈ deleted) :
    (∀ n ∈ (reconcileSnapshot deleted localPositions currentNodes incoming).1,
        n.id ≠ delId) ∧
    oid ∈ (deleteObject deleted nodes bid oid).deleted ∧
    (deleteObject deleted nodes bid oid).clearDelayMs = 1000 ∧
    oid ∉ clearDeletedTracking (deleteObject deleted nodes bid oid).deleted oid := by
  refine ⟨?_, ?_, rfl, ?_⟩
  · intro n hn hnid
    have hmem : n.id ∈ ((reconcileSnapshot deleted localPositions
        currentNodes incoming).1).map CanvasNode.id :=
      List.mem_map_of_mem CanvasNode.id hn
    unfold reconcileSnapshot at hmem
    rw [foldl_reconcileStep_ids] at hmem
    simp only [List.map_nil, List.nil_append] at hmem
    rcases List.mem_map.1 hmem with ⟨m, hmf, hmid⟩
    have hkeep := List.of_mem_filter hmf
    rw [hmid, hnid] at hkeep
    have : delId ∉ deleted := by simpa using hkeep
    exact this hdel
  · by_cases h : deleted.contains oid
    · simp only [deleteObject, if_pos h]
      simpa using h
    · simp only [deleteObject, if_neg h]
      simp
  · intro hmem
    unfold clearDeletedTracking at hmem
    have := List.of_mem_filter hmem
    simp at this

/-- Witness for C2 at a concrete state: the deleted id `x` survives no
reconciliation, and a delete of `x` schedules a 1000 ms clearing. -/
theorem c2_tombstone_suppression_witness :
    (∀ n ∈ (reconcileSnapshot ["x"] [] [] [nodeX]).1, n.id ≠ "x") ∧
    "x" ∈ (deleteObject ["x"] [nodeX] "b" "x").deleted ∧
    (deleteObject ["x"] [nodeX] "b" "x").clearDelayMs = 1000 ∧
    "x" ∉ clearDeletedTracking (deleteObject ["x"] [nodeX] "b" "x").deleted "x" :=
  c2_tombstone_suppression ["x"] [] [] [nodeX] [nodeX] "b" "x" "x"
    (by simp)

/-- Claim C3 (evaluation at the failing input): with zone `z1` locally
deleted but still present in the last received board snapshot, a pending
resize flush for `z1` still emits an `upsertObject` write for `z1` — the
resize flush path never consults the locally-deleted set — while the
position flush path at the same state correctly drops `z1` from its batch
payload. -/
theorem c3_resize_flush_ignores_deleted :
    resizeFlushWrites [("z1", zoneO)] "b" [("z1", ⟨300, 200⟩)]
      = [MutationWrite.upsertObject "b" "z1"
          (setObjectDims zoneO ⟨300, 200⟩)] ∧
    batchPositionsPayload ["z1"] [("z1", zoneO)] [("z1", ⟨7, 8⟩)] = [] := by
  constructor
  · rfl
  · rfl

/-- Claim C6 (counterexample): a resize flush with two accumulated zone
dimension edits issues two separate `upsertObject` calls, not one batch
call — the flush is not a single batch operation. -/
theorem c6_claim_counterexample :
    (resizeFlush [("z1", zoneO), ("z2", zoneA)] "b"
        [("z1", ⟨200, 150⟩), ("z2", ⟨250, 175⟩)]).1
      = [MutationWrite.upsertObject "b" "z1" (setObjectDims zoneO ⟨200, 150⟩),
         MutationWrite.upsertObject "b" "z2"
           (setObjectDims zoneA ⟨250, 175⟩)] ∧
    (resizeFlush [("z1", zoneO), ("z2", zoneA)] "b"
        [("z1", ⟨200, 150⟩), ("z2", ⟨250, 175⟩)]).1.length ≠ 1 := by
  refine ⟨rfl, ?_⟩
  intro h
  have h2 : (resizeFlush [("z1", zoneO), ("z2", zoneA)] "b"
      [("z1", ⟨200, 150⟩), ("z2", ⟨250, 175⟩)]).1.length = 2 := rfl
  omega

/-- Claim C6 (amended): on timer expiry both debounce flushes consume and
clear their whole pending buffer, and overwriting accumulation means only
the final buffered value per id is flushed; the layout flush sends the
accumulated zone positions as at most one batch call, while the resize
flush sends one individual `upsertObject` call per eligible pending zone
id rather than a single batch. -/
theorem c6_flush_amended (boardObjects : List (String × BoardObject))
    (bid : String) (pendingDims : List (String × Dim))
    (nodes : List CanvasNode) (deleted : List String)
    (boardLayout : List (String × LayoutEntry))
    (pendingPos : List (String × Pos)) (buf : List (String × Dim))
    (k : String) (d1 d2 : Dim) :
    (resizeFlush boardObjects bid pendingDims).2 = [] ∧
    (layoutFlush nodes deleted boardObjects bid boardLayout pendingPos).2
        = [] ∧
    (accumPending (accumPending buf k d1) k d2).lookup k = some d2 ∧
    (∀ w ∈ (resizeFlush boardObjects bid pendingDims).1,
      ∃ oid dat, w = MutationWrite.upsertObject bid oid dat) ∧
    ((resizeFlush boardObjects bid pendingDims).1.length
      = (pendingDims.filter (fun kv =>
          match boardObjects.lookup kv.1 with
          | some obj => obj.btype == "zone"
          | none => false)).length) ∧
    ((layoutFlush nodes deleted boardObjects bid boardLayout
        pendingPos).1.countP
          (fun w => match w with
            | MutationWrite.batchUpsertObjects _ _ => true
            | _ => false) ≤ 1) := by
  refine ⟨rfl, rfl, lookup_setKey_self k d2 (setKey k d1 buf),
    resizeFlushWrites_shape boardObjects bid pendingDims,
    resizeFlushWrites_length boardObjects bid pendingDims, ?_⟩
  unfold layoutFlush
  by_cases hs : (pendingPos.filter
      (fun kv => !isZoneNode nodes kv.1)).isEmpty <;>
    by_cases ho : (pendingPos.filter
        (fun kv => isZoneNode nodes kv.1)).isEmpty <;>
      simp [hs, ho, batchUpdateObjectPositions, List.countP_cons]

/-- Witness for the amended C6: two buffered values for one id coalesce
to the final one, and a concrete two-zone resize flush clears its
buffer. -/
theorem c6_flush_amended_witness :
    (accumPending (accumPending ([] : List (String × Dim)) "k" ⟨1, 1⟩)
        "k" ⟨2, 2⟩).lookup "k" = some ⟨2, 2⟩ :=
  (c6_flush_amended [] "b" [] [] [] [] [] [] "k" ⟨1, 1⟩ ⟨2, 2⟩).2.2.1

/-- Claim C7: a successful board mutation publishes the full resulting
board to every connection of the everybody channel — in particular the
originating client; joining on connection registers a client; after
disconnect a connection receives nothing; and a client that removed its
patched listener dispatches the event to no removed handler. -/
theorem c7_broadcast_delivery (resolve : String → String) (db : BoardDB)
    (bid : String) (a : HookAction) (channel : List String) (b : Board)
    (db2 : BoardDB) (deliveries : List (String × Board))
    (h : mutateAndBroadcast resolve db bid a channel
        = .ok (b, db2, deliveries)) :
    (∀ c ∈ channel, (c, b) ∈ deliveries) ∧
    (∀ c, c ∈ joinEverybody channel c) ∧
    (∀ c, (c, b) ∉ publishPatched (disconnectChannel channel c) b) ∧
    (∀ listeners hdl,
      (hdl, b) ∉ dispatchPatched (removeListener listeners hdl) b) := by
  have hdeliv : deliveries = publishPatched channel b := by
    unfold mutateAndBroadcast at h
    cases hk : boardsPatchHook resolve db bid a with
    | error e => rw [hk] at h; cases h
    | ok r =>
        rw [hk] at h
        cases h
        rfl
  refine ⟨?_, ?_, ?_, ?_⟩
  · intro c hc
    rw [hdeliv]
    exact List.mem_map.2 ⟨c, hc, rfl⟩
  · intro c
    by_cases hc : channel.contains c
    · simp only [joinEverybody, if_pos hc]
      simpa using hc
    · simp only [joinEverybody, if_neg hc]
      simp
  · intro c hmem
    rcases List.mem_map.1 hmem with ⟨x, hx, hxe⟩
    have hxc : x = c := congrArg Prod.fst hxe
    have := List.of_mem_filter hx
    rw [hxc] at this
    simp at this
  · intro listeners hdl hmem
    rcases List.mem_map.1 hmem with ⟨x, hx, hxe⟩
    have hxc : x = hdl := congrArg Prod.fst hxe
    have := List.of_mem_filter hx
    rw [hxc] at this
    simp at this

/-- Witness for C7: a concrete remove mutation on the sample board is
broadcast to connection `c1` of the two-member everybody channel. -/
theorem c7_broadcast_delivery_witness :
    ("c1", boardBdel) ∈ publishPatched ["c1", "c2"] boardBdel := by
  have h := (c7_broadcast_delivery id [("b", boardB)] "b"
      (HookAction.removeObject "o") ["c1", "c2"] boardBdel
      [("b", boardBdel)] (publishPatched ["c1", "c2"] boardBdel) rfl).1
  exact h "c1" (by simp)

/-- Claim C9: releasing a zone-drawing drag creates the optimistic zone
node and issues the `upsertObject` mutation (when board and client exist)
exactly when the drawn rectangle is strictly larger than 50 by 50 pixels
in screen space; otherwise the node set is unchanged and no write is
issued; the active tool resets to select in either case. -/
theorem c9_zone_draw_threshold (dz : DrawingZone) (s2f : Pos → Pos)
    (zoom : ℚ) (hbc : Bool) (bid : String) (nowMs : Nat)
    (nodes : List CanvasNode) :
    ((mathAbs (dz.endX - dz.startX) > 50 ∧
        mathAbs (dz.endY - dz.startY) > 50) →
      handlePointerUp "zone" (some dz) true s2f zoom hbc bid nowMs nodes
        = { nodes := nodes ++ [zoneNodeOf dz s2f zoom nowMs]
          , writes := if hbc then [zoneWriteOf dz s2f zoom bid nowMs] else []
          , drawingZone := none
          , activeTool := "select" }) ∧
    (¬ (mathAbs (dz.endX - dz.startX) > 50 ∧
        mathAbs (dz.endY - dz.startY) > 50) →
      handlePointerUp "zone" (some dz) true s2f zoom hbc bid nowMs nodes
        = { nodes := nodes
          , writes := []
          , drawingZone := none
          , activeTool := "select" }) := by
  constructor
  · intro hwh
    simp only [handlePointerUp]
    rw [if_pos (⟨trivial, trivial⟩ : True ∧ True), if_pos hwh]
    rfl
  · intro hwh
    simp only [handlePointerUp]
    rw [if_pos (⟨trivial, trivial⟩ : True ∧ True), if_neg hwh]

/-- Witness for C9: a 30-by-30 drag creates nothing, writes nothing, and
still resets the tool to select. -/
theorem c9_zone_draw_threshold_witness :
    handlePointerUp "zone" (some ⟨0, 0, 30, 30⟩) true id 1 true "b" 5 []
      = { nodes := [], writes := [], drawingZone := none
        , activeTool := "select" } :=
  (c9_zone_draw_threshold ⟨0, 0, 30, 30⟩ id 1 true "b" 5 []).2
    (by norm_num [mathAbs])

/-- Claim C10: the eraser click handler deletes only zone nodes — for a
session node it deletes nothing — and the Delete/Backspace handler only
ever deletes ids of selected zone-typed nodes. -/
theorem c10_erase_only_zones (activeTool key : String) (node : CanvasNode)
    (nodes : List CanvasNode) :
    (node.ntype = "sessionNode" → (handleNodeClick activeTool node).1 = []) ∧
    ((handleNodeClick activeTool node).1 ≠ [] →
      activeTool = "eraser" ∧ node.ntype = "zone") ∧
    (∀ i ∈ (handleKeyDown key nodes).2,
      ∃ n, n ∈ nodes ∧ n.selected = true ∧ n.ntype = "zone" ∧ n.id = i) := by
  refine ⟨?_, ?_, ?_⟩
  · intro hsn
    unfold handleNodeClick
    by_cases ht : activeTool = "eraser"
    · rw [if_pos ht]
      have hnz : ¬ node.ntype = "zone" := by rw [hsn]; simp
      simp [hnz]
    · rw [if_neg ht]
  · intro hne
    unfold handleNodeClick at hne
    by_cases ht : activeTool = "eraser"
    · rw [if_pos ht] at hne
      by_cases hz : node.ntype = "zone"
      · exact ⟨ht, hz⟩
      · rw [if_neg hz] at hne
        simp at hne
    · rw [if_neg ht] at hne
      simp at hne
  · intro i hi
    simp only [handleKeyDown] at hi
    by_cases hk : key = "Delete" ∨ key = "Backspace"
    · rw [if_pos hk] at hi
      rcases List.mem_map.1 hi with ⟨n, hnf, hnid⟩
      have h1 := List.mem_filter.1 hnf
      have h2 := List.mem_filter.1 h1.1
      refine ⟨n, h2.1, by simpa using h2.2, by simpa using h1.2, hnid⟩
    · rw [if_neg hk] at hi
      simp at hi

/-- Witness for C10: the eraser click on a session node deletes
nothing. -/
theorem c10_erase_only_zones_witness :
    (handleNodeClick "eraser" nodeS).1 = [] :=
  (c10_erase_only_zones "eraser" "Delete" nodeS [nodeS]).1 rfl
